import Mathlib

/-!
Shallow embedding of the table-detection core of `finmodel/reader.py`
(ExcelReader: detect_key_value_tables, detect_tables, detect_header_row,
read_table, read_key_value_region, read_key_value_table), together with
theorems settling the frozen claims about it.

Modelling conventions:
* A sheet is a 1-indexed grid of cell values; a cell value is `absent`
  (Python `None`), text, or a number (modelled as a rational; the engine
  never computes with numbers, it only carries and classifies them).
* `openpyxl`'s `ws.cell(r, c).value` returns `None` for any cell beyond
  the stored extent; `Grid.cell` likewise returns `absent` out of range.
* pandas DataFrames are modelled by `PDFrame`: an optional index column,
  a list of column identifiers (positional or cell-valued), and the data
  rows.  Only structure observable through the repository's use of the
  frames is modelled.
* Python's rendering of a non-string cell via `str(...)` is modelled by
  `cellStr`; the exact text of a rendered number is irrelevant to every
  claim (all named regions in the scenarios have textual name cells).
-/

namespace FinModel

/-- A cell value: absent (Python `None`), text, or a number. -/
inductive CellVal where
  | absent : CellVal
  | text (s : String) : CellVal
  | num (q : ℚ) : CellVal
deriving DecidableEq, Repr

/-- `v is None` in Python. -/
def CellVal.isAbsent : CellVal → Bool
  | .absent => true
  | _ => false

/-- `isinstance(v, str)` in Python. -/
def CellVal.isText : CellVal → Bool
  | .text _ => true
  | _ => false

/-- `isinstance(v, (int, float)) and v is not None` in Python. -/
def CellVal.isNum : CellVal → Bool
  | .num _ => true
  | _ => false

/-- Python truthiness of a cell value: `None`, `""` and `0` are falsy. -/
def truthy : CellVal → Bool
  | .absent => false
  | .text s => !(s == "")
  | .num q => !(q == 0)

/-- Python `str(v)` for a cell value (only ever applied to present cells). -/
def cellStr : CellVal → String
  | .absent => ""
  | .text s => s
  | .num q => toString q

/-- Whitespace characters removed by Python `str.strip()`. -/
def isStripChar (c : Char) : Bool :=
  c == ' ' || c == '\t' || c == '\n' || c == '\r'

/-- Python `s.strip()`: remove leading and trailing whitespace. -/
def pyStrip (s : String) : String :=
  ⟨((s.data.dropWhile isStripChar).reverse.dropWhile isStripChar).reverse⟩

/-- A sheet: a list of rows of cell values (row 1 first). -/
structure Grid where
  rows : List (List CellVal)
deriving DecidableEq, Repr

/-- `ws.cell(r, c).value`, 1-indexed; absent outside the stored extent. -/
def Grid.cell (g : Grid) (r c : Nat) : CellVal :=
  match r, c with
  | r + 1, c + 1 => (g.rows.getD r []).getD c .absent
  | _, _ => .absent

/-- `ws.max_row`. -/
def Grid.maxRow (g : Grid) : Nat := g.rows.length

/-- `ws.max_column`: widest stored row. -/
def Grid.maxCol (g : Grid) : Nat :=
  g.rows.foldl (fun m row => Nat.max m row.length) 0

/-- `TableRegion` from `reader.py`: an inclusive 1-indexed rectangular span
plus a display name and optional title-row marker. -/
structure TableRegion where
  start_row : Nat
  end_row : Nat
  start_col : Nat
  end_col : Nat
  name : String
  title_row : Option Nat
deriving DecidableEq, Repr

/-- Python `title or default` where `title` is `None` or a string
(empty string is falsy). -/
def nameOr : Option String → String → String
  | some s, d => if s = "" then d else s
  | none, d => d

/-- `f"Table_{len(tables)+1}"`. -/
def defaultName (tables : List TableRegion) : String :=
  "Table_" ++ toString (tables.length + 1)

/-- Transient scan state of `detect_key_value_tables`.  The Python code
keeps `current_start` and `current_end` as two variables, but every write
keeps them jointly `None` or jointly set, so they are modelled as one
optional pair `span`. -/
structure KVState where
  title : Option String
  title_row : Option Nat
  span : Option (Nat × Nat)
  tables : List TableRegion
deriving DecidableEq, Repr

/-- Emit the open data span (if any) as a Region, columns fixed at 1–3,
named by the captured title or the positional default. -/
def kvFlush (st : KVState) : List TableRegion :=
  match st.span with
  | some (s, e) =>
      st.tables ++ [⟨s, e, 1, 3, nameOr st.title (defaultName st.tables), st.title_row⟩]
  | none => st.tables

/-- One row of the `detect_key_value_tables` scan: classify row `r` by its
column-A and column-B values and update the state. -/
def kvStep (g : Grid) (st : KVState) (r : Nat) : KVState :=
  let a := g.cell r 1
  let b := g.cell r 2
  if !a.isAbsent && b.isAbsent then
    -- title row: flush any open span, then capture this title
    { title := some (pyStrip (cellStr a)), title_row := some r, span := none, tables := kvFlush st }
  else if !a.isAbsent && !b.isAbsent then
    -- data row: open or extend the span
    match st.span with
    | none => { st with span := some (r, r) }
    | some (s, _) => { st with span := some (s, r) }
  else if a.isAbsent && b.isAbsent then
    -- blank row: flush any open span; the title is NOT cleared
    { st with span := none, tables := kvFlush st }
  else
    -- asymmetric row (A absent, B present): silently skipped
    st

/-- Fold `kvStep` over a list of row indices. -/
def kvScan (g : Grid) : List Nat → KVState → KVState
  | [], st => st
  | r :: rest, st => kvScan g rest (kvStep g st r)

def kvInit : KVState := ⟨none, none, none, []⟩

/-- `ExcelReader.detect_key_value_tables`: scan rows `1..max_row` (Python
`range(1, ws.max_row + 1)`), then flush a still-open trailing span. -/
def detect_key_value_tables (g : Grid) : List TableRegion :=
  kvFlush (kvScan g (List.range' 1 g.maxRow) kvInit)

/-- The populated cells of row `r`, as (row, column) pairs in column order. -/
def rowCells (g : Grid) (r : Nat) : List (Nat × Nat) :=
  (List.range g.maxCol).filterMap
    (fun ci => if (g.cell r (ci + 1)).isAbsent then none else some (r, ci + 1))

/-- Populated cells of `n` consecutive rows starting at row `r`, row-major. -/
def dataCellsFrom (g : Grid) : Nat → Nat → List (Nat × Nat)
  | _, 0 => []
  | r, n + 1 => rowCells g r ++ dataCellsFrom g (r + 1) (n)

/-- All populated cells of the sheet in row-major order (the sorted
`data_cells` list of `detect_tables`; the generation order is already the
sorted order, so `data_cells.sort()` is the identity). -/
def dataCells (g : Grid) : List (Nat × Nat) := dataCellsFrom g 1 g.maxRow

/-- `min(c for r, c in data_cells)` (0 when there are no cells; the code
only uses it when cells exist). -/
def sheetMinCol (g : Grid) : Nat :=
  match dataCells g with
  | [] => 0
  | c0 :: rest => (c0 :: rest).foldl (fun m p => Nat.min m p.2) c0.2

/-- `max(c for r, c in data_cells)`. -/
def sheetMaxCol (g : Grid) : Nat :=
  match dataCells g with
  | [] => 0
  | c0 :: rest => (c0 :: rest).foldl (fun m p => Nat.max m p.2) c0.2

/-- Transient scan state of `detect_tables` (the running region).  The
Python dict also carries `start_col`/`end_col`, but they are written once
from the whole-sheet extrema and copied unchanged into every new running
region, so they are passed as constants. -/
structure GenState where
  start_row : Nat
  end_row : Nat
  tables : List TableRegion
deriving DecidableEq, Repr

/-- Region naming in `detect_tables`: the cell at the region's top-left
corner, trimmed, when truthy and nonempty after trimming; otherwise the
positional default. -/
def genRegionName (g : Grid) (r c : Nat) (tables : List TableRegion) : String :=
  let v := g.cell r c
  let d := defaultName tables
  if truthy v then
    let s := pyStrip (cellStr v)
    if s = "" then d else s
  else d

/-- Close the running region: append it only if it spans at least
`minRows` rows. -/
def genEmit (g : Grid) (cMin cMax minRows : Nat) (st : GenState) : List TableRegion :=
  if st.end_row - st.start_row + 1 ≥ minRows then
    st.tables ++ [⟨st.start_row, st.end_row, cMin, cMax,
      genRegionName g st.start_row cMin st.tables, none⟩]
  else st.tables

/-- Walk the remaining populated cells; `prev` is the previous cell's row
(`data_cells[i-1][0]`).  A row gap `> 1` closes the running region and
starts a new one at the current cell's row. -/
def genLoop (g : Grid) (cMin cMax minRows : Nat) :
    List (Nat × Nat) → Nat → GenState → GenState
  | [], _, st => st
  | (r, _) :: rest, prev, st =>
    if r - prev > 1 then
      genLoop g cMin cMax minRows rest r
        { start_row := r, end_row := r, tables := genEmit g cMin cMax minRows st }
    else
      genLoop g cMin cMax minRows rest r { st with end_row := r }

/-- `ExcelReader.detect_tables`: group the populated cells into contiguous
row bands separated by blank-row gaps; every region's column span is the
whole-sheet min/max populated column. -/
def detect_tables (g : Grid) (minRows : Nat) : List TableRegion :=
  match dataCells g with
  | [] => []
  | c0 :: rest =>
    let cMin := sheetMinCol g
    let cMax := sheetMaxCol g
    genEmit g cMin cMax minRows (genLoop g cMin cMax minRows rest c0.1 ⟨c0.1, c0.1, []⟩)

/-- The cell values of row `r` across columns `c1..c2` inclusive. -/
def rowVals (g : Grid) (r c1 c2 : Nat) : List CellVal :=
  (List.range (c2 + 1 - c1)).map (fun i => g.cell r (c1 + i))

/-- The candidate loop of `detect_header_row`, over the remaining row
offsets; the empty case is the post-loop default (`start_row` when the
region spans more than one row, else no header). -/
def headerScan (g : Grid) (reg : TableRegion) : List Nat → Option Nat
  | [] => if reg.start_row < reg.end_row then some reg.start_row else none
  | offset :: rest =>
    let r := reg.start_row + offset
    let rv := rowVals g r reg.start_col reg.end_col
    if rv.all (fun v => !v.isAbsent) then
      let rule2 : Bool :=
        if r < reg.end_row then
          let nv := rowVals g (r + 1) reg.start_col reg.end_col
          let numericCount := (nv.filter CellVal.isNum).length
          let stringCount := (rv.filter CellVal.isText).length
          decide (2 * stringCount ≥ rv.length) && decide (0 < numericCount)
        else false
      if rule2 then some r
      else if offset == 0 && rv.all CellVal.isText then some r
      else headerScan g reg rest
    else headerScan g reg rest

/-- `ExcelReader.detect_header_row`: check at most the first 3 rows of the
region (`string-then-numeric` adjacency, or an all-text first row), with a
default guess after the loop. -/
def detect_header_row (g : Grid) (reg : TableRegion) : Option Nat :=
  headerScan g reg (List.range (Nat.min 3 (reg.end_row + 1 - reg.start_row)))

/-- Column identifier of a materialized frame: positional (pandas
RangeIndex) or a header cell value. -/
inductive ColId where
  | pos (i : Nat)
  | cell (v : CellVal)
deriving DecidableEq, Repr

/-- The observable structure of the pandas DataFrames this code builds:
an optional promoted index column, column identifiers, and data rows. -/
structure PDFrame where
  index : Option (List CellVal)
  columns : List ColId
  data : List (List CellVal)
deriving DecidableEq, Repr

/-- `pd.DataFrame()`. -/
def emptyFrame : PDFrame := ⟨none, [], []⟩

/-- Positional columns `0..n-1` (pandas `RangeIndex`). -/
def posColumns (n : Nat) : List ColId := (List.range n).map ColId.pos

/-- The values of `n` consecutive rows starting at row `r`, each read
across columns `c1..c2`. -/
def rowsFrom (g : Grid) (r c1 c2 : Nat) : Nat → List (List CellVal)
  | 0 => []
  | n + 1 => rowVals g r c1 c2 :: rowsFrom g (r + 1) c1 c2 n

/-- The raw cell values of a region's span, row by row
(the `data` extraction loop shared by `read_table` and
`read_key_value_region`). -/
def regionData (g : Grid) (reg : TableRegion) : List (List CellVal) :=
  rowsFrom g reg.start_row reg.start_col reg.end_col
    (reg.end_row + 1 - reg.start_row)

/-- `ExcelReader.read_table` on a given sheet: materialize a region,
optionally auto-detecting a header by the row-1-text vs row-2-numeric
majority test. -/
def read_table (active : Grid) (reg : TableRegion)
    (has_header auto_detect_header : Bool) : PDFrame :=
  let data := regionData active reg
  match data with
  | [] => emptyFrame
  | first :: rest =>
    if auto_detect_header && decide (1 < (first :: rest).length) then
      let second := rest.getD 0 []
      let firstStrings := (first.filter CellVal.isText).length
      let secondNumeric := (second.filter CellVal.isNum).length
      if decide (2 * firstStrings ≥ first.length) && decide (0 < secondNumeric) then
        ⟨none, first.map ColId.cell, rest⟩
      else
        ⟨none, posColumns first.length, first :: rest⟩
    else if has_header && decide (1 < (first :: rest).length) then
      ⟨none, first.map ColId.cell, rest⟩
    else
      ⟨none, posColumns first.length, first :: rest⟩

/-- `df.set_index(df.columns[0])`: promote the first column to the index. -/
def setIndexFirst (f : PDFrame) : PDFrame :=
  ⟨some (f.data.map (fun row => row.headD CellVal.absent)),
   f.columns.tail,
   f.data.map List.tail⟩

def kvColumns2 : List ColId :=
  [ColId.cell (CellVal.text "Parameter"), ColId.cell (CellVal.text "Value")]

def kvColumns3 : List ColId :=
  kvColumns2 ++ [ColId.cell (CellVal.text "Unit")]

/-- The DataFrame construction of `read_key_value_region`, applied to the
extracted region rows: Parameter/Value(/Unit) column names when the rows
are 2 or 3 cells wide, then the Parameter column promoted to the index
(when present and the frame is nonempty).  No row is dropped. -/
def kvFrameOf (data : List (List CellVal)) : PDFrame :=
  match data with
  | [] => emptyFrame
  | first :: rest =>
    let df : PDFrame :=
      if first.length = 2 then ⟨none, kvColumns2, first :: rest⟩
      else if first.length = 3 then ⟨none, kvColumns3, first :: rest⟩
      else ⟨none, posColumns first.length, first :: rest⟩
    if !(df.data.isEmpty || df.columns.isEmpty)
        && decide (ColId.cell (CellVal.text "Parameter") ∈ df.columns) then
      setIndexFirst df
    else df

/-- `ExcelReader.read_key_value_region`: extract the region's rows and
build the key-value frame. -/
def read_key_value_region (g : Grid) (reg : TableRegion) : PDFrame :=
  kvFrameOf (regionData g reg)

/-- The DataFrame construction of `read_key_value_table`, applied to the
non-empty extracted rows: positional columns, rows whose first column is
absent DROPPED, first column promoted to the index. -/
def kvTableFrameOf (data : List (List CellVal)) : PDFrame :=
  match data with
  | [] => emptyFrame
  | first :: rest =>
    let df : PDFrame := ⟨none, posColumns first.length, first :: rest⟩
    let df2 : PDFrame :=
      { df with data := df.data.filter (fun row => !(row.headD CellVal.absent).isAbsent) }
    if !(df2.data.isEmpty || df2.columns.isEmpty) then setIndexFirst df2 else df2

/-- `ExcelReader.read_key_value_table`: read rows `start..end` of the
sheet at full width, skip fully empty rows, and build the frame. -/
def read_key_value_table (g : Grid) (startRow endRow : Option Nat) : PDFrame :=
  let s := startRow.getD 1
  let e := endRow.getD g.maxRow
  kvTableFrameOf ((rowsFrom g s 1 g.maxCol (e + 1 - s)).filter
      (fun row => row.any (fun v => !v.isAbsent)))

/-- An `ExcelReader`'s workbook: named sheets plus the active sheet
(`workbook.active`). -/
structure Workbook where
  sheets : List (String × Grid)
  active : Grid
deriving DecidableEq, Repr

/-- `self.workbook[sheet_name]` (the empty grid stands in for the missing
sheet error, which no claim exercises). -/
def Workbook.sheet (wb : Workbook) (name : String) : Grid :=
  ((wb.sheets.find? (fun p => p.1 == name)).map Prod.snd).getD ⟨[]⟩

/-- `ExcelReader.read_table` as actually dispatched: it reads from the
workbook's ACTIVE sheet, the region's detection sheet never being passed. -/
def Workbook.read_table (wb : Workbook) (reg : TableRegion)
    (has_header auto_detect_header : Bool) : PDFrame :=
  FinModel.read_table wb.active reg has_header auto_detect_header

/-! ### Concrete sheets used as witnesses and counterexamples -/

/-- The rational 0.4, given in normalized form so that equality on it
evaluates by kernel reduction. -/
def q04 : ℚ := ⟨2, 5, by decide, by decide⟩

/-- The rational 0.42 in normalized form. -/
def q042 : ℚ := ⟨21, 50, by decide, by decide⟩

/-- The rational 0.68 in normalized form. -/
def q068 : ℚ := ⟨17, 25, by decide, by decide⟩

/-- Scenario A of the spec: rows (1: "Rates", absent) (2: "Spot", 50)
(3: "Vol", 0.4) (4: absent, absent) (5: "Greeks", absent)
(6: "Delta", 0.68). -/
def gScenA : Grid := ⟨[
  [CellVal.text "Rates"],
  [CellVal.text "Spot", CellVal.num 50],
  [CellVal.text "Vol", CellVal.num q04],
  [],
  [CellVal.text "Greeks"],
  [CellVal.text "Delta", CellVal.num q068]]⟩

/-- Two runs of populated cells: rows 1–2 populated only in column 1,
row 3 blank, rows 4–5 populated only in column 5. -/
def gRuns : Grid := ⟨[
  [CellVal.text "A"],
  [CellVal.text "B"],
  [],
  [CellVal.absent, CellVal.absent, CellVal.absent, CellVal.absent, CellVal.text "X"],
  [CellVal.absent, CellVal.absent, CellVal.absent, CellVal.absent, CellVal.text "Y"]]⟩

/-- Scenario D of the spec: two all-numeric rows, no text row. -/
def gNum : Grid := ⟨[[CellVal.num 48, CellVal.num q04],
  [CellVal.num 52, CellVal.num q042]]⟩

/-- The region covering all of `gNum`. -/
def regNum : TableRegion := ⟨1, 2, 1, 2, "", none⟩

/-- A two-row key-value block whose second row has an absent first
(label) column. -/
def gNoLabel : Grid := ⟨[[CellVal.text "Spot", CellVal.num 50],
  [CellVal.absent, CellVal.num 99]]⟩

/-- The region covering all of `gNoLabel`. -/
def regNoLabel : TableRegion := ⟨1, 2, 1, 2, "", none⟩

/-- A one-row, one-column sheet. -/
def gTiny : Grid := ⟨[[CellVal.text "A"]]⟩

/-- A region whose row span extends one row past `gTiny`'s extent. -/
def regPastEnd : TableRegion := ⟨1, 2, 1, 1, "", none⟩

/-- Scenario C of the spec: an all-text header row over two all-numeric
data rows. -/
def gHdr : Grid := ⟨[
  [CellVal.text "Strike", CellVal.text "Spot", CellVal.text "Vol"],
  [CellVal.num 50, CellVal.num 48, CellVal.num q04],
  [CellVal.num 52, CellVal.num 48, CellVal.num q042]]⟩

/-- The region covering all of `gHdr`. -/
def regHdr : TableRegion := ⟨1, 3, 1, 3, "", none⟩

/-- A workbook with two sheets holding same-shaped tables at identical
coordinates but different contents, and a third, distinct active sheet. -/
def wbTwo : Workbook :=
  ⟨[("S1", ⟨[[CellVal.text "A"], [CellVal.text "B"]]⟩),
    ("S2", ⟨[[CellVal.text "X"], [CellVal.text "Y"]]⟩)],
   gHdr⟩

/-! ### Claim theorems -/

/-- C5: on the Scenario A grid, the Key-Value Region Detector returns
exactly two Regions in order: "Rates" spanning rows 2–3 and "Greeks"
spanning rows 6–6 (the latter emitted by the end-of-sheet flush). -/
theorem C5_scenarioA :
    detect_key_value_tables gScenA =
      [⟨2, 3, 1, 3, "Rates", some 1⟩, ⟨6, 6, 1, 3, "Greeks", some 5⟩] := by
  decide

/-- C1 counterexample: on `gRuns` the run at rows 1–2 has populated cells
only in column 1 (the run at rows 4–5 only in column 5), yet the Generic
Region Detector gives BOTH regions the whole-sheet column span 1–5.  The
emitted column span is therefore not the union of the columns populated
within the run alone, refuting C1 as stated. -/
theorem C1_counterexample :
    (detect_tables gRuns 2).map
        (fun r => (r.start_row, r.end_row, r.start_col, r.end_col)) =
      [(1, 2, 1, 5), (4, 5, 1, 5)] ∧
      (dataCells gRuns).filter (fun p => p.1 ≤ 2) = [(1, 1), (2, 1)] ∧
      (dataCells gRuns).filter (fun p => 4 ≤ p.1) = [(4, 5), (5, 5)] := by
  decide

/-- C2 (code bug): `read_table` and `read_key_value_region` never validate
the region span against the grid extent; on a region reaching one row past
the end of the 1×1 sheet `gTiny` they silently return a tabular value
whose second row was read past the real extent and consists of absent
values, instead of failing with an out-of-range condition. -/
theorem C2_out_of_range_reads_absent :
    gTiny.maxRow = 1 ∧ regPastEnd.end_row = 2 ∧
      read_table gTiny regPastEnd true true =
        ⟨none, [ColId.pos 0], [[CellVal.text "A"], [CellVal.absent]]⟩ ∧
      read_key_value_region gTiny regPastEnd =
        ⟨none, [ColId.pos 0], [[CellVal.text "A"], [CellVal.absent]]⟩ := by
  decide

/-- C3 counterexample: materializing the region `regNoLabel` of `gNoLabel`
with `read_key_value_region` returns BOTH rows, including the second row
whose first (label) column is absent — that row is promoted into the index
as an absent label, not dropped. -/
theorem C3_counterexample :
    read_key_value_region gNoLabel regNoLabel =
      ⟨some [CellVal.text "Spot", CellVal.absent],
       [ColId.cell (CellVal.text "Value")],
       [[CellVal.num 50], [CellVal.num 99]]⟩ ∧
      (read_key_value_region gNoLabel regNoLabel).data.length = 2 := by
  decide

/-- C4 counterexample: on the two-row all-numeric region of Scenario D the
Header Row Locator does NOT return "no header": having matched no
candidate, it falls back to the default guess and returns the region's
start row, because the region spans more than one row. -/
theorem C4_counterexample : detect_header_row gNum regNum = some 1 := by
  decide

/-- C4 amended: on the Scenario D region the Header Row Locator returns
the region's start row (the post-loop default guess for a region spanning
more than one row), while the generic materializer with auto-detection
emits all rows as data with positional column identifiers. -/
theorem C4_amended :
    detect_header_row gNum regNum = some regNum.start_row ∧
      read_table gNum regNum true true =
        ⟨none, [ColId.pos 0, ColId.pos 1],
         [[CellVal.num 48, CellVal.num q04],
          [CellVal.num 52, CellVal.num q042]]⟩ := by
  decide

/-- C9: in the Key-Value Region Detector, a blank row (column A and
column B both absent) closes and emits any open data span (`kvFlush`,
which appends the open span as a Region named by the current title) but
leaves the captured title text and title-row index unchanged, so a later
data span in the same scan is still named by that title. -/
theorem C9_blank_row_preserves_title (g : Grid) (st : KVState) (r : Nat)
    (ha : g.cell r 1 = CellVal.absent) (hb : g.cell r 2 = CellVal.absent) :
    (kvStep g st r).title = st.title ∧
      (kvStep g st r).title_row = st.title_row ∧
      (kvStep g st r).span = none ∧
      (kvStep g st r).tables = kvFlush st := by
  simp only [kvStep, ha, hb]
  exact ⟨rfl, rfl, rfl, rfl⟩

/-- Witness for C9: a blank row hitting a state with title "Rates" and an
open span over rows 2–3 emits the span and keeps the title. -/
theorem C9_witness :
    (kvStep ⟨[]⟩ ⟨some "Rates", some 1, some (2, 3), []⟩ 4).title = some "Rates" ∧
      (kvStep ⟨[]⟩ ⟨some "Rates", some 1, some (2, 3), []⟩ 4).title_row = some 1 ∧
      (kvStep ⟨[]⟩ ⟨some "Rates", some 1, some (2, 3), []⟩ 4).span = none ∧
      (kvStep ⟨[]⟩ ⟨some "Rates", some 1, some (2, 3), []⟩ 4).tables =
        kvFlush ⟨some "Rates", some 1, some (2, 3), []⟩ :=
  C9_blank_row_preserves_title ⟨[]⟩ ⟨some "Rates", some 1, some (2, 3), []⟩ 4 rfl rfl

/-- C10: `read_table` reads cell values from the workbook's active sheet
only; its result depends on a region only through the four span
coordinates, so two regions with identical coordinates detected on
different sheets (with any names) materialize to the same tabular value,
for every header setting. -/
theorem C10_read_table_active_only (wb : Workbook) (s1 s2 : String)
    (n1 n2 : Nat) (r1 r2 : TableRegion)
    (_h1 : r1 ∈ detect_tables (wb.sheet s1) n1)
    (_h2 : r2 ∈ detect_tables (wb.sheet s2) n2)
    (hsr : r1.start_row = r2.start_row) (her : r1.end_row = r2.end_row)
    (hsc : r1.start_col = r2.start_col) (hec : r1.end_col = r2.end_col)
    (hh ad : Bool) :
    wb.read_table r1 hh ad = wb.read_table r2 hh ad := by
  unfold Workbook.read_table read_table regionData
  rw [hsr, her, hsc, hec]

/-- Witness for C10: same-coordinate regions detected on the two sheets
of `wbTwo` (one named "A", one named "X") materialize identically. -/
theorem C10_witness :
    wbTwo.read_table ⟨1, 2, 1, 1, "A", none⟩ true true =
      wbTwo.read_table ⟨1, 2, 1, 1, "X", none⟩ true true :=
  C10_read_table_active_only wbTwo "S1" "S2" 2 2
    ⟨1, 2, 1, 1, "A", none⟩ ⟨1, 2, 1, 1, "X", none⟩
    (by decide) (by decide) rfl rfl rfl rfl true true

/-! ### Helper lemmas about materialization -/

theorem rowsFrom_length (g : Grid) (c1 c2 : Nat) :
    ∀ (r n : Nat), (rowsFrom g r c1 c2 n).length = n
  | _, 0 => rfl
  | r, n + 1 => congrArg Nat.succ (rowsFrom_length g c1 c2 (r + 1) n)

theorem regionData_length (g : Grid) (reg : TableRegion) :
    (regionData g reg).length = reg.end_row + 1 - reg.start_row :=
  rowsFrom_length g _ _ _ _

theorem setIndexFirst_data_length (f : PDFrame) :
    (setIndexFirst f).data.length = f.data.length := by
  simp [setIndexFirst]

theorem ite_setIndexFirst_len (c : Bool) (df : PDFrame) :
    (if c = true then setIndexFirst df else df).data.length = df.data.length := by
  cases c
  · rfl
  · exact setIndexFirst_data_length df

theorem kvFrameOf_data_length (data : List (List CellVal)) :
    (kvFrameOf data).data.length = data.length := by
  cases data with
  | nil => rfl
  | cons first rest =>
    simp only [kvFrameOf]
    rw [ite_setIndexFirst_len]
    split
    · rfl
    · split <;> rfl

theorem kvTableFrameOf_labels (data : List (List CellVal)) :
    ((kvTableFrameOf data).index.getD []).all (fun v => !v.isAbsent) = true := by
  cases data with
  | nil => rfl
  | cons first rest =>
    simp only [kvTableFrameOf]
    split
    · simp only [setIndexFirst, Option.getD_some]
      simp only [List.all_eq_true, List.mem_map]
      rintro v ⟨row, hrow, rfl⟩
      exact (List.mem_filter.mp hrow).2
    · rfl

/-- C3 amended: key-value materialization of a Region
(`read_key_value_region`) keeps every row of the region — its frame has
exactly as many rows as the region spans, so rows with an absent first
(label) column are NOT dropped there; the defensive drop of
absent-first-column rows exists only in the whole-sheet
`read_key_value_table`, whose index labels are consequently all present. -/
theorem C3_amended :
    (∀ (g : Grid) (reg : TableRegion),
        (read_key_value_region g reg).data.length =
          reg.end_row + 1 - reg.start_row) ∧
      ∀ (g : Grid) (s e : Option Nat),
        ((read_key_value_table g s e).index.getD []).all
          (fun v => !v.isAbsent) = true := by
  constructor
  · intro g reg
    rw [read_key_value_region, kvFrameOf_data_length, regionData_length]
  · intro g s e
    rw [read_key_value_table]
    exact kvTableFrameOf_labels _

/-! ### Helper lemmas about the Generic Region Detector -/

/-- Any region in the output of `genEmit` was already accumulated or is
the freshly closed running region, which then carries the fixed column
span and passed the `minRows` guard. -/
theorem genEmit_mem (g : Grid) (cMin cMax n : Nat) (st : GenState)
    (reg : TableRegion) (h : reg ∈ genEmit g cMin cMax n st) :
    reg ∈ st.tables ∨
      (reg.start_col = cMin ∧ reg.end_col = cMax ∧
        n ≤ reg.end_row - reg.start_row + 1) := by
  unfold genEmit at h
  by_cases hc : st.end_row - st.start_row + 1 ≥ n
  · rw [if_pos hc] at h
    rcases List.mem_append.1 h with h1 | h1
    · exact Or.inl h1
    · have he := List.mem_singleton.1 h1
      subst he
      exact Or.inr ⟨rfl, rfl, hc⟩
  · rw [if_neg hc] at h
    exact Or.inl h

/-- Any region accumulated by `genLoop` was in the starting state or was
emitted by some `genEmit` along the way. -/
theorem genLoop_mem (g : Grid) (cMin cMax n : Nat) :
    ∀ (cells : List (Nat × Nat)) (prev : Nat) (st : GenState)
      (reg : TableRegion),
      reg ∈ (genLoop g cMin cMax n cells prev st).tables →
      reg ∈ st.tables ∨
        (reg.start_col = cMin ∧ reg.end_col = cMax ∧
          n ≤ reg.end_row - reg.start_row + 1)
  | [], _, _, _, h => Or.inl h
  | (r, c) :: rest, prev, st, reg, h => by
    rw [genLoop] at h
    by_cases hc : r - prev > 1
    · rw [if_pos hc] at h
      rcases genLoop_mem g cMin cMax n rest r _ reg h with h1 | h1
      · exact genEmit_mem g cMin cMax n st reg h1
      · exact Or.inr h1
    · rw [if_neg hc] at h
      rcases genLoop_mem g cMin cMax n rest r _ reg h with h1 | h1
      · exact Or.inl h1
      · exact Or.inr h1

/-- Every region emitted by `detect_tables` carries the whole-sheet
column extrema as its column span and satisfies the `minRows` bound. -/
theorem detect_tables_mem (g : Grid) (n : Nat) (reg : TableRegion)
    (h : reg ∈ detect_tables g n) :
    reg.start_col = sheetMinCol g ∧ reg.end_col = sheetMaxCol g ∧
      n ≤ reg.end_row - reg.start_row + 1 := by
  unfold detect_tables at h
  cases hd : dataCells g with
  | nil => rw [hd] at h; cases h
  | cons c0 rest =>
    rw [hd] at h
    rcases genEmit_mem g _ _ n _ reg h with h1 | h1
    · rcases genLoop_mem g _ _ n rest c0.1 _ reg h1 with h2 | h2
      · cases h2
      · exact h2
    · exact h1

/-- C1 amended: every Region emitted by the Generic Region Detector has
`start_col` equal to the minimum and `end_col` equal to the maximum column
index over the populated cells of the WHOLE sheet — not merely over the
cells of its own run (refuted by `C1_counterexample`). -/
theorem C1_amended (g : Grid) (n : Nat) (reg : TableRegion)
    (h : reg ∈ detect_tables g n) :
    reg.start_col = sheetMinCol g ∧ reg.end_col = sheetMaxCol g :=
  ⟨(detect_tables_mem g n reg h).1, (detect_tables_mem g n reg h).2.1⟩

/-- Witness for C1 amended: the first region detected on `gRuns` has the
whole-sheet column span. -/
theorem C1_amended_witness :
    (⟨1, 2, 1, 5, "A", none⟩ : TableRegion).start_col = sheetMinCol gRuns ∧
      (⟨1, 2, 1, 5, "A", none⟩ : TableRegion).end_col = sheetMaxCol gRuns :=
  C1_amended gRuns 2 ⟨1, 2, 1, 5, "A", none⟩ (by decide)

/-- C7: for every grid and every `N ≥ 1`, every Region returned by the
Generic Region Detector called with `minRows = N` spans at least `N`
rows: `end_row - start_row + 1 ≥ N`. -/
theorem C7_min_rows (g : Grid) (N : Nat) (_hN : 1 ≤ N) (reg : TableRegion)
    (h : reg ∈ detect_tables g N) :
    reg.end_row - reg.start_row + 1 ≥ N :=
  (detect_tables_mem g N reg h).2.2

/-- Witness for C7 at `gRuns`, `N = 2`. -/
theorem C7_min_rows_witness :
    (⟨1, 2, 1, 5, "A", none⟩ : TableRegion).end_row -
        (⟨1, 2, 1, 5, "A", none⟩ : TableRegion).start_row + 1 ≥ 2 :=
  C7_min_rows gRuns 2 (by decide) ⟨1, 2, 1, 5, "A", none⟩ (by decide)

/-! ### Region ordering invariants (C6) -/

/-- Well-formedness of one region: nonempty row and column span. -/
def regionWF (r : TableRegion) : Prop :=
  r.start_row ≤ r.end_row ∧ r.start_col ≤ r.end_col

/-- Region `a` lies strictly above region `b`: increasing start rows and
disjoint row ranges. -/
def regionBelow (a b : TableRegion) : Prop :=
  a.start_row < b.start_row ∧ a.end_row < b.start_row

/-- All accumulated regions end strictly before row `m`. -/
def tablesBelow (ts : List TableRegion) (m : Nat) : Prop :=
  ∀ r ∈ ts, r.end_row < m

/-- Scan invariant of the key-value detector after the rows before `lo`
have been processed: accumulated regions are ordered and well formed, and
the open span (if any) starts after all of them and ends before `lo`. -/
def KVInv (st : KVState) (lo : Nat) : Prop :=
  st.tables.Pairwise regionBelow ∧ (∀ r ∈ st.tables, regionWF r) ∧
    match st.span with
    | some (s, e) => s ≤ e ∧ e < lo ∧ tablesBelow st.tables s
    | none => tablesBelow st.tables lo

theorem tablesBelow_mono {ts : List TableRegion} {m m' : Nat}
    (h : tablesBelow ts m) (hm : m ≤ m') : tablesBelow ts m' :=
  fun r hr => lt_of_lt_of_le (h r hr) hm

theorem KVInv_mono {st : KVState} {lo lo' : Nat}
    (h : KVInv st lo) (hlo : lo ≤ lo') : KVInv st lo' := by
  obtain ⟨hp, hw, hs⟩ := h
  refine ⟨hp, hw, ?_⟩
  cases hsp : st.span with
  | none =>
    rw [hsp] at hs
    exact tablesBelow_mono hs hlo
  | some p =>
    obtain ⟨s, e⟩ := p
    rw [hsp] at hs
    exact ⟨hs.1, lt_of_lt_of_le hs.2.1 hlo, hs.2.2⟩

/-- Flushing the open span preserves ordering, well-formedness and the
row bound. -/
theorem kvFlush_inv {st : KVState} {lo : Nat} (h : KVInv st lo) :
    (kvFlush st).Pairwise regionBelow ∧ (∀ r ∈ kvFlush st, regionWF r) ∧
      tablesBelow (kvFlush st) lo := by
  obtain ⟨hp, hw, hs⟩ := h
  cases hsp : st.span with
  | none =>
    rw [hsp] at hs
    have hk : kvFlush st = st.tables := by rw [kvFlush, hsp]
    rw [hk]
    exact ⟨hp, hw, hs⟩
  | some p =>
    obtain ⟨s, e⟩ := p
    rw [hsp] at hs
    obtain ⟨hse, helo, hbelow⟩ := hs
    have hk : kvFlush st = st.tables ++
        [⟨s, e, 1, 3, nameOr st.title (defaultName st.tables), st.title_row⟩] := by
      rw [kvFlush, hsp]
    rw [hk]
    refine ⟨?_, ?_, ?_⟩
    · rw [List.pairwise_append]
      refine ⟨hp, List.pairwise_singleton _ _, ?_⟩
      intro a ha b hb
      rw [List.mem_singleton] at hb
      subst hb
      exact ⟨lt_of_le_of_lt (hw a ha).1 (hbelow a ha), hbelow a ha⟩
    · intro r hr
      rcases List.mem_append.1 hr with h1 | h1
      · exact hw r h1
      · rw [List.mem_singleton] at h1
        subst h1
        exact ⟨hse, by show (1 : Nat) ≤ 3; omega⟩
    · intro r hr
      rcases List.mem_append.1 hr with h1 | h1
      · have := hbelow r h1
        omega
      · rw [List.mem_singleton] at h1
        subst h1
        exact helo

/-- One step of the key-value scan preserves the invariant, advancing the
row bound past the processed row. -/
theorem kvStep_inv {g : Grid} {st : KVState} {lo r : Nat}
    (h : KVInv st lo) (hlo : lo ≤ r) : KVInv (kvStep g st r) (r + 1) := by
  have hfl := kvFlush_inv h
  obtain ⟨hp, hw, hs⟩ := h
  rw [kvStep]
  by_cases h1 : (!(g.cell r 1).isAbsent && (g.cell r 2).isAbsent) = true
  · rw [if_pos h1]
    exact ⟨hfl.1, hfl.2.1, tablesBelow_mono hfl.2.2 (by omega)⟩
  · rw [if_neg h1]
    by_cases h2 : (!(g.cell r 1).isAbsent && !(g.cell r 2).isAbsent) = true
    · rw [if_pos h2]
      cases hsp : st.span with
      | none =>
        rw [hsp] at hs
        exact ⟨hp, hw, le_refl r, by omega, tablesBelow_mono hs hlo⟩
      | some p =>
        obtain ⟨s, e⟩ := p
        rw [hsp] at hs
        exact ⟨hp, hw, by omega, by omega, hs.2.2⟩
    · rw [if_neg h2]
      by_cases h3 : ((g.cell r 1).isAbsent && (g.cell r 2).isAbsent) = true
      · rw [if_pos h3]
        exact ⟨hfl.1, hfl.2.1, tablesBelow_mono hfl.2.2 (by omega)⟩
      · rw [if_neg h3]
        exact KVInv_mono ⟨hp, hw, hs⟩ (by omega)

/-- The rows still to scan are increasing, starting at or after `lo`. -/
def RowsOK : Nat → List Nat → Prop
  | _, [] => True
  | lo, r :: rest => lo ≤ r ∧ RowsOK (r + 1) rest

theorem kvScan_inv (g : Grid) :
    ∀ (rows : List Nat) (st : KVState) (lo : Nat),
      KVInv st lo → RowsOK lo rows → ∃ m, KVInv (kvScan g rows st) m
  | [], _, lo, h, _ => ⟨lo, h⟩
  | r :: rest, st, _, h, hr =>
    kvScan_inv g rest (kvStep g st r) (r + 1) (kvStep_inv h hr.1) hr.2

theorem rowsOK_range' : ∀ (n s lo : Nat), lo ≤ s → RowsOK lo (List.range' s n)
  | 0, _, _, _ => trivial
  | n + 1, s, _, h => ⟨h, rowsOK_range' n (s + 1) (s + 1) (le_refl _)⟩

/-- The full key-value detection pass yields ordered, well-formed
regions. -/
theorem detect_key_value_tables_ordered (g : Grid) :
    (detect_key_value_tables g).Pairwise regionBelow ∧
      ∀ r ∈ detect_key_value_tables g, regionWF r := by
  have hinit : KVInv kvInit 1 :=
    ⟨List.Pairwise.nil, fun r hr => absurd hr (List.not_mem_nil r),
     fun r hr => absurd hr (List.not_mem_nil r)⟩
  obtain ⟨m, hm⟩ := kvScan_inv g (List.range' 1 g.maxRow) kvInit 1 hinit
    (rowsOK_range' g.maxRow 1 1 (le_refl 1))
  have hfl := kvFlush_inv hm
  exact ⟨hfl.1, hfl.2.1⟩

/-- Scan invariant of the generic detector while `prev` is the last row
seen: accumulated regions are ordered and well formed, the running region
ends exactly at `prev`, and all accumulated regions lie above it. -/
def GenInv (st : GenState) (prev : Nat) : Prop :=
  st.tables.Pairwise regionBelow ∧ (∀ r ∈ st.tables, regionWF r) ∧
    st.start_row ≤ st.end_row ∧ st.end_row = prev ∧
    tablesBelow st.tables st.start_row

/-- Closing the running region preserves ordering and well-formedness and
bounds all regions by the running region's end row. -/
theorem genEmit_inv {g : Grid} {cMin cMax n : Nat} {st : GenState}
    {prev : Nat} (hcc : cMin ≤ cMax) (h : GenInv st prev) :
    (genEmit g cMin cMax n st).Pairwise regionBelow ∧
      (∀ r ∈ genEmit g cMin cMax n st, regionWF r) ∧
      tablesBelow (genEmit g cMin cMax n st) (st.end_row + 1) := by
  obtain ⟨hp, hw, hse, hep, hb⟩ := h
  rw [genEmit]
  by_cases hc : st.end_row - st.start_row + 1 ≥ n
  · rw [if_pos hc]
    refine ⟨?_, ?_, ?_⟩
    · rw [List.pairwise_append]
      refine ⟨hp, List.pairwise_singleton _ _, ?_⟩
      intro a ha b hb'
      rw [List.mem_singleton] at hb'
      subst hb'
      exact ⟨lt_of_le_of_lt (hw a ha).1 (hb a ha), hb a ha⟩
    · intro r hr
      rcases List.mem_append.1 hr with h1 | h1
      · exact hw r h1
      · rw [List.mem_singleton] at h1
        subst h1
        exact ⟨hse, hcc⟩
    · intro r hr
      rcases List.mem_append.1 hr with h1 | h1
      · have := hb r h1
        omega
      · rw [List.mem_singleton] at h1
        subst h1
        show st.end_row < st.end_row + 1
        omega
  · rw [if_neg hc]
    refine ⟨hp, hw, fun r hr => ?_⟩
    have := hb r hr
    omega

/-- The cells still to walk have non-decreasing rows, starting at or
after row `p`. -/
def CellsOK : Nat → List (Nat × Nat) → Prop
  | _, [] => True
  | p, q :: rest => p ≤ q.1 ∧ CellsOK q.1 rest

theorem genLoop_inv (g : Grid) (cMin cMax n : Nat) (hcc : cMin ≤ cMax) :
    ∀ (cells : List (Nat × Nat)) (prev : Nat) (st : GenState),
      GenInv st prev → CellsOK prev cells →
      ∃ prev', GenInv (genLoop g cMin cMax n cells prev st) prev'
  | [], prev, _, h, _ => ⟨prev, h⟩
  | (r, c) :: rest, prev, st, h, hcells => by
    obtain ⟨hp, hw, hse, hep, hb⟩ := h
    rw [genLoop]
    by_cases hgap : r - prev > 1
    · rw [if_pos hgap]
      have hemit := genEmit_inv (g := g) (n := n) hcc ⟨hp, hw, hse, hep, hb⟩
      refine genLoop_inv g cMin cMax n hcc rest r _ ?_ hcells.2
      refine ⟨hemit.1, hemit.2.1, le_refl r, rfl, ?_⟩
      have hlt : st.end_row + 1 ≤ r := by omega
      exact tablesBelow_mono hemit.2.2 hlt
    · rw [if_neg hgap]
      refine genLoop_inv g cMin cMax n hcc rest r _ ?_ hcells.2
      have hpr : prev ≤ r := hcells.1
      exact ⟨hp, hw, by show st.start_row ≤ r; omega, rfl, hb⟩

theorem foldl_min_le :
    ∀ (l : List (Nat × Nat)) (a : Nat),
      l.foldl (fun m p => Nat.min m p.2) a ≤ a
  | [], a => le_refl a
  | p :: l, a =>
    le_trans (foldl_min_le l (Nat.min a p.2)) (Nat.min_le_left a p.2)

theorem le_foldl_max :
    ∀ (l : List (Nat × Nat)) (a : Nat),
      a ≤ l.foldl (fun m p => Nat.max m p.2) a
  | [], a => le_refl a
  | p :: l, a =>
    le_trans (Nat.le_max_left a p.2) (le_foldl_max l (Nat.max a p.2))

/-- On a sheet with at least one populated cell, the whole-sheet minimum
column does not exceed the maximum column. -/
theorem sheetMinCol_le_sheetMaxCol {g : Grid} {c0 : Nat × Nat}
    {rest : List (Nat × Nat)} (h : dataCells g = c0 :: rest) :
    sheetMinCol g ≤ sheetMaxCol g := by
  unfold sheetMinCol sheetMaxCol
  rw [h]
  exact le_trans (foldl_min_le (c0 :: rest) c0.2) (le_foldl_max (c0 :: rest) c0.2)

theorem cellsOK_weaken {lo' : Nat} :
    ∀ {lo : Nat} {cells : List (Nat × Nat)},
      CellsOK lo cells → lo' ≤ lo → CellsOK lo' cells
  | _, [], _, _ => trivial
  | _, _ :: _, h, hle => ⟨le_trans hle h.1, h.2⟩

theorem rowCells_fst (g : Grid) (r : Nat) : ∀ q ∈ rowCells g r, q.1 = r := by
  intro q hq
  rw [rowCells] at hq
  rcases List.mem_filterMap.1 hq with ⟨ci, _, hq2⟩
  by_cases hab : (g.cell r (ci + 1)).isAbsent = true
  · rw [if_pos hab] at hq2
    cases hq2
  · rw [if_neg hab] at hq2
    injection hq2 with h
    rw [← h]

theorem cellsOK_append {r : Nat} :
    ∀ (xs : List (Nat × Nat)), (∀ q ∈ xs, q.1 = r) →
      ∀ {lo : Nat} {ys : List (Nat × Nat)}, lo ≤ r → CellsOK r ys →
      CellsOK lo (xs ++ ys)
  | [], _, _, _, hlo, hys => cellsOK_weaken hys hlo
  | q :: xs, hx, _, _, hlo, hys => by
    have hq : q.1 = r := hx q (List.mem_cons_self q xs)
    refine ⟨by omega, ?_⟩
    rw [hq]
    exact cellsOK_append xs (fun p hp => hx p (List.mem_cons_of_mem q hp))
      (le_refl r) hys

theorem cellsOK_dataCellsFrom (g : Grid) :
    ∀ (n r lo : Nat), lo ≤ r → CellsOK lo (dataCellsFrom g r n)
  | 0, _, _, _ => trivial
  | n + 1, r, _, hlo =>
    cellsOK_append (rowCells g r) (rowCells_fst g r) hlo
      (cellsOK_dataCellsFrom g n (r + 1) r (by omega))

/-- The populated-cell walk of `detect_tables` visits rows in
non-decreasing order. -/
theorem cellsOK_rest {g : Grid} {c0 : Nat × Nat} {rest : List (Nat × Nat)}
    (h : dataCells g = c0 :: rest) : CellsOK c0.1 rest := by
  have hall := cellsOK_dataCellsFrom g g.maxRow 1 1 (le_refl 1)
  rw [dataCells] at h
  rw [h] at hall
  exact hall.2

/-- The full generic detection pass yields ordered, well-formed
regions. -/
theorem detect_tables_ordered (g : Grid) (n : Nat) :
    (detect_tables g n).Pairwise regionBelow ∧
      ∀ r ∈ detect_tables g n, regionWF r := by
  rw [detect_tables]
  cases hd : dataCells g with
  | nil =>
    exact ⟨List.Pairwise.nil, fun r hr => absurd hr (List.not_mem_nil r)⟩
  | cons c0 rest =>
    have hcc : sheetMinCol g ≤ sheetMaxCol g := sheetMinCol_le_sheetMaxCol hd
    have hinit : GenInv ⟨c0.1, c0.1, []⟩ c0.1 :=
      ⟨List.Pairwise.nil, fun r hr => absurd hr (List.not_mem_nil r),
       le_refl _, rfl, fun r hr => absurd hr (List.not_mem_nil r)⟩
    obtain ⟨prev', hinv⟩ := genLoop_inv g (sheetMinCol g) (sheetMaxCol g) n hcc
      rest c0.1 ⟨c0.1, c0.1, []⟩ hinit (cellsOK_rest hd)
    have hfin := genEmit_inv (g := g) (n := n) hcc hinv
    exact ⟨hfin.1, hfin.2.1⟩

/-- C6: for every grid (and every `minRows`), the Regions returned by one
call of either detector — key-value or generic — have strictly increasing
`start_row`, pairwise disjoint row ranges (each region ends before the
next begins), and each satisfies `start_row ≤ end_row` and
`start_col ≤ end_col`. -/
theorem C6_disjoint_ordered (g : Grid) (n : Nat) :
    ((detect_key_value_tables g).Pairwise
        (fun a b => a.start_row < b.start_row ∧ a.end_row < b.start_row) ∧
      ∀ reg ∈ detect_key_value_tables g,
        reg.start_row ≤ reg.end_row ∧ reg.start_col ≤ reg.end_col) ∧
      ((detect_tables g n).Pairwise
        (fun a b => a.start_row < b.start_row ∧ a.end_row < b.start_row) ∧
      ∀ reg ∈ detect_tables g n,
        reg.start_row ≤ reg.end_row ∧ reg.start_col ≤ reg.end_col) :=
  ⟨detect_key_value_tables_ordered g, detect_tables_ordered g n⟩

/-- Witness for C6 at the Scenario A grid: the first detected key-value
region is well formed. -/
theorem C6_witness :
    (⟨2, 3, 1, 3, "Rates", some 1⟩ : TableRegion).start_row ≤
        (⟨2, 3, 1, 3, "Rates", some 1⟩ : TableRegion).end_row ∧
      (⟨2, 3, 1, 3, "Rates", some 1⟩ : TableRegion).start_col ≤
        (⟨2, 3, 1, 3, "Rates", some 1⟩ : TableRegion).end_col :=
  (C6_disjoint_ordered gScenA 2).1.2 ⟨2, 3, 1, 3, "Rates", some 1⟩ (by decide)

/-! ### Header agreement (C8) -/

theorem rowVals_length (g : Grid) (r c1 c2 : Nat) :
    (rowVals g r c1 c2).length = c2 + 1 - c1 := by
  simp [rowVals]

/-- A fully textual row has no absent cell. -/
theorem all_isText_not_absent {l : List CellVal}
    (h : l.all CellVal.isText = true) :
    l.all (fun v => !v.isAbsent) = true := by
  rw [List.all_eq_true] at h ⊢
  intro v hv
  have hvt := h v hv
  cases v <;> simp_all [CellVal.isText, CellVal.isAbsent]

/-- Filtering by a predicate every element satisfies keeps every element. -/
theorem filter_all_eq_self {α} {p : α → Bool} {l : List α}
    (h : l.all p = true) : l.filter p = l :=
  List.filter_eq_self.mpr (List.all_eq_true.1 h)

/-- C8: for every region whose first row is fully populated with text and
whose remaining rows (at least one) are entirely numeric, the Header Row
Locator returns the region's first row, and the generic materializer's
independent auto-detect path also promotes that first row to the header
(columns = the first row's cells, data = the remaining rows): the two
decision procedures agree on this shape of input. -/
theorem C8_header_agreement (g : Grid) (reg : TableRegion)
    (hc : reg.start_col ≤ reg.end_col) (hr : reg.start_row < reg.end_row)
    (htext : (rowVals g reg.start_row reg.start_col reg.end_col).all
      CellVal.isText = true)
    (hnum : ∀ r, reg.start_row < r → r ≤ reg.end_row →
      (rowVals g r reg.start_col reg.end_col).all CellVal.isNum = true) :
    detect_header_row g reg = some reg.start_row ∧
      ∀ hh, read_table g reg hh true =
        ⟨none, ((regionData g reg).headD []).map ColId.cell,
         (regionData g reg).tail⟩ := by
  have hnum1 := hnum (reg.start_row + 1) (by omega) (by omega)
  have hwid := rowVals_length g reg.start_row reg.start_col reg.end_col
  have hwid1 := rowVals_length g (reg.start_row + 1) reg.start_col reg.end_col
  have hstr : ((rowVals g reg.start_row reg.start_col reg.end_col).filter
      CellVal.isText).length =
      (rowVals g reg.start_row reg.start_col reg.end_col).length := by
    rw [filter_all_eq_self htext]
  have hnm : ((rowVals g (reg.start_row + 1) reg.start_col reg.end_col).filter
      CellVal.isNum).length =
      (rowVals g (reg.start_row + 1) reg.start_col reg.end_col).length := by
    rw [filter_all_eq_self hnum1]
  have hb1 : decide (2 * ((rowVals g reg.start_row reg.start_col
      reg.end_col).filter CellVal.isText).length ≥
      (rowVals g reg.start_row reg.start_col reg.end_col).length) = true :=
    decide_eq_true (by rw [hstr]; omega)
  have hb2 : decide (0 < ((rowVals g (reg.start_row + 1) reg.start_col
      reg.end_col).filter CellVal.isNum).length) = true :=
    decide_eq_true (by rw [hnm, hwid1]; omega)
  constructor
  · obtain ⟨m, hm⟩ : ∃ m, Nat.min 3 (reg.end_row + 1 - reg.start_row) = m + 1 := by
      unfold Nat.min
      rcases Nat.le_total 3 (reg.end_row + 1 - reg.start_row) with h | h
      · exact ⟨2, by rw [min_eq_left h]⟩
      · exact ⟨reg.end_row - reg.start_row, by rw [min_eq_right h]; omega⟩
    rw [detect_header_row, hm, List.range_succ_eq_map]
    simp only [headerScan, Nat.add_zero]
    rw [if_pos (all_isText_not_absent htext), if_pos hr, hb1, hb2]
    rfl
  · intro hh
    obtain ⟨k, hk⟩ : ∃ k, reg.end_row + 1 - reg.start_row = k + 2 :=
      ⟨reg.end_row - 1 - reg.start_row, by omega⟩
    have hdata : regionData g reg =
        rowVals g reg.start_row reg.start_col reg.end_col ::
          rowVals g (reg.start_row + 1) reg.start_col reg.end_col ::
            rowsFrom g (reg.start_row + 1 + 1) reg.start_col reg.end_col k := by
      rw [regionData, hk]
      rfl
    rw [read_table, hdata]
    have hlen : decide (1 <
        (rowVals g reg.start_row reg.start_col reg.end_col ::
          rowVals g (reg.start_row + 1) reg.start_col reg.end_col ::
            rowsFrom g (reg.start_row + 1 + 1) reg.start_col reg.end_col
              k).length) = true :=
      decide_eq_true (by simp)
    simp only [hlen, List.getD_cons_zero, hb1, hb2, Bool.and_true,
      Bool.true_and, Bool.and_self]
    cases hh <;> rfl

/-- Witness for C8 on the Scenario C region (one all-text row over two
all-numeric rows). -/
theorem C8_witness :
    detect_header_row gHdr regHdr = some regHdr.start_row ∧
      read_table gHdr regHdr true true =
        ⟨none, ((regionData gHdr regHdr).headD []).map ColId.cell,
         (regionData gHdr regHdr).tail⟩ :=
  ⟨(C8_header_agreement gHdr regHdr (by decide) (by decide) (by decide)
      (by intro r h1 h2
          have h1' : 1 < r := h1
          have h2' : r ≤ 3 := h2
          interval_cases r <;> decide)).1,
   (C8_header_agreement gHdr regHdr (by decide) (by decide) (by decide)
      (by intro r h1 h2
          have h1' : 1 < r := h1
          have h2' : r ≤ 3 := h2
          interval_cases r <;> decide)).2 true⟩

end FinModel
